import Mathlib

/-!
Verification of the Terraform module analysis engine
(`src/reviewers/terraform_module_analyzer.py`, with its parsing adapter in
`src/reviewers/terraform_reviewer.py`).

The Python code operates on the block trees returned by the external
`python-hcl2` parser.  We embed those trees as the inductive type `HVal`
(Python scalars, lists and string-keyed dicts), embed every checker of the
analyzer as an executable Lean function over `HVal`, and embed the public
entry point `analyze_terraform_modules`.  The external parser itself is a
parameter (`parse : String → PObj`); an empty object models the falsy `{}`
that `_parse_tf_content` returns on any parse failure.

Python raises `AttributeError` / `TypeError` when a checker invokes a string
operation (`startswith`, `in`) on a non-string block-attribute value; the
three checkers that do so are therefore embedded in `Except PyErr`, and the
entry point propagates such errors exactly as the Python call chain does.

String primitives (`in`, `startswith`, `endswith`, `lstrip`, `rstrip`,
`replace`, `split`, `join`) and the three regular expressions used by the
analyzer are embedded directly as executable character-list functions with
Python semantics (ASCII character classes, matching the analyzer's inputs).
-/

set_option maxHeartbeats 1000000

namespace TfAnalyzer

/-! ## Python string primitives -/

/-- Python `needle in hay` (substring containment) on character lists. -/
def containsList (needle : List Char) : List Char → Bool
  | [] => needle.isPrefixOf []
  | c :: rest => needle.isPrefixOf (c :: rest) || containsList needle rest

/-- Python `needle in hay` for strings. -/
def pyIn (needle hay : String) : Bool := containsList needle.data hay.data

/-- Python `s.startswith(pre)`. -/
def pyStartsWith (s pre : String) : Bool := pre.data.isPrefixOf s.data

/-- Python `s.endswith(suf)`. -/
def pyEndsWith (s suf : String) : Bool := suf.data.isSuffixOf s.data

/-- Python `s.rstrip("/")`: remove all trailing `/` characters. -/
def rstripSlash (s : String) : String :=
  ⟨(s.data.reverse.dropWhile (fun c => c = '/')).reverse⟩

/-- Python `s.lstrip(chars)`: remove leading characters drawn from the set
`chars` (the argument of `lstrip` is a character set, not a prefix). -/
def lstripCharset (cs : List Char) (s : String) : String :=
  ⟨s.data.dropWhile (fun c => cs.contains c)⟩

/-- One step bound for `removeAllFuel`: the fuel argument starts at the
length of the subject list, and every recursive call consumes at least one
character of the subject (or leaves it unchanged when `old` is empty, in
which case the result equals the subject, matching Python
`s.replace("", "") == s`). -/
def removeAllFuel (old : List Char) : Nat → List Char → List Char
  | 0, l => l
  | _ + 1, [] => []
  | fuel + 1, c :: rest =>
    if old.isPrefixOf (c :: rest) then
      removeAllFuel old fuel ((c :: rest).drop old.length)
    else
      c :: removeAllFuel old fuel rest

/-- Python `s.replace(old, "")`: delete every (leftmost, non-overlapping)
occurrence of `old` in `s`. -/
def pyReplaceDel (s old : String) : String :=
  ⟨removeAllFuel old.data s.data.length s.data⟩

/-- Python `s.split(sep)` for a single-character separator. -/
def splitChar (sep : Char) : List Char → List (List Char)
  | [] => [[]]
  | c :: rest =>
    if c = sep then [] :: splitChar sep rest
    else
      match splitChar sep rest with
      | [] => [[c]]
      | p :: ps => (c :: p) :: ps

/-- Python `"/".join(filename.split("/")[:-1]) if "/" in filename else ""`:
the directory of a slash-separated path, empty for a root-level file. -/
def dirOf (filename : String) : String :=
  if pyIn "/" filename then
    String.intercalate "/" (((splitChar '/' filename.data).map
      (fun l => (⟨l⟩ : String))).dropLast)
  else ""

/-- Lexicographic comparison of character lists by code point, as Python
string comparison does. -/
def charListLe : List Char → List Char → Bool
  | [], _ => true
  | _ :: _, [] => false
  | a :: as, b :: bs => if a = b then charListLe as bs else decide (a < b)

/-- Insertion step of `sortStrings`. -/
def insertSorted (x : String) : List String → List String
  | [] => [x]
  | y :: ys => if charListLe x.data y.data then x :: y :: ys else y :: insertSorted x ys

/-- Python `sorted` on strings (ascending by code point). -/
def sortStrings (l : List String) : List String := l.foldr insertSorted []

/-! ## Parsed HCL2 block trees (`hcl2.load` output values) -/

/-- A Python value inside a parsed HCL2 block tree: `None`, a bool, an int,
a string, a list, or a string-keyed dict (insertion-ordered). -/
inductive HVal where
  | vnull : HVal
  | vbool : Bool → HVal
  | vint : Int → HVal
  | vstr : String → HVal
  | vlist : List HVal → HVal
  | vdict : List (String × HVal) → HVal

/-- A parsed file or configuration object: a string-keyed Python dict,
embedded as an insertion-ordered association list. -/
abbrev PObj := List (String × HVal)

/-- First-match association-list lookup: Python `d.get(k)` / `d[k]`. -/
def assocGet {β : Type} : List (String × β) → String → Option β
  | [], _ => none
  | (k2, v) :: rest, k => if k2 = k then some v else assocGet rest k

/-- Python `d[k] = v`: overwrite in place, preserving key position, or
append a fresh key at the end. -/
def assocSet {β : Type} : List (String × β) → String → β → List (String × β)
  | [], k, v => [(k, v)]
  | (k2, v2) :: rest, k, v =>
    if k2 = k then (k2, v) :: rest else (k2, v2) :: assocSet rest k v

/-- Python `cfg.get(k, dflt)`. -/
def getD (cfg : PObj) (k : String) (dflt : HVal) : HVal := (assocGet cfg k).getD dflt

/-- The analyzer's recurring normalization
`x = x[0] if x else dflt` applied when `isinstance(x, list)`. -/
def unwrap1 (dflt : HVal) : HVal → HVal
  | .vlist [] => dflt
  | .vlist (x :: _) => x
  | v => v

/-- Python truthiness of an `HVal`. -/
def truthy : HVal → Bool
  | .vnull => false
  | .vbool b => b
  | .vint n => decide (n ≠ 0)
  | .vstr s => !(s.isEmpty)
  | .vlist xs => !xs.isEmpty
  | .vdict es => !es.isEmpty

/-- The helper `_iter_blocks(data, key)` from `terraform_reviewer.py`: the value under
`key` if it is a list, a singleton of it otherwise, `[]` when absent. -/
def iterBlocks (parsed : PObj) (key : String) : List HVal :=
  match assocGet parsed key with
  | none => []
  | some (.vlist xs) => xs
  | some v => [v]

/-- Python `configs if isinstance(configs, list) else [configs]`. -/
def asList : HVal → List HVal
  | .vlist xs => xs
  | v => [v]

/-- Python `v is None`. -/
def isNull : HVal → Bool
  | .vnull => true
  | _ => false

/-- Python `v == ""` (true only for the empty string). -/
def eqEmptyStr : HVal → Bool
  | .vstr s => s.isEmpty
  | _ => false

/-- Python `v == []` (true only for the empty list). -/
def eqEmptyList : HVal → Bool
  | .vlist xs => xs.isEmpty
  | _ => false

/-! ## Findings -/

/-- One reported issue, mirroring the finding dicts built by the analyzer.
The recommendation is optional in the data model (`string | null`); every
emission site of the source supplies one. -/
structure Finding where
  severity : String
  message : String
  recommendation : Option String
deriving DecidableEq, Repr

def CRITICAL : String := "critical"
def WARNING : String := "warning"
def INFO : String := "info"

/-- A Python exception escaping a checker. -/
inductive PyErr where
  | attributeError : PyErr
  | typeError : PyErr
deriving DecidableEq, Repr

/-- Sequence a list of fallible finding producers, concatenating their
results in order and propagating the first error, exactly as a Python
`for` loop that appends findings and may raise. -/
def exList {α : Type} (g : α → Except PyErr (List Finding)) :
    List α → Except PyErr (List Finding)
  | [] => .ok []
  | x :: xs =>
    match g x with
    | .error e => .error e
    | .ok fs =>
      match exList g xs with
      | .error e => .error e
      | .ok rest => .ok (fs ++ rest)

/-! ## Static tables -/

def SENSITIVE_VARIABLE_PATTERNS : List String :=
  ["password", "secret", "token", "api_key", "access_key", "private_key",
   "credentials", "connection_string", "auth", "db_pass", "master_password",
   "admin_password"]

def TRUSTED_REGISTRY_PREFIXES : List String :=
  ["hashicorp/", "registry.terraform.io/", "./", "../"]

/-- Python `s.lower()` (ASCII case folding, which covers the analyzer's
ASCII pattern table). -/
def pyLower (s : String) : String := ⟨s.data.map Char.toLower⟩

/-- The guard `any(pat in name_lower for pat in SENSITIVE_VARIABLE_PATTERNS)`;
the argument is expected to be already lower-cased by the caller. -/
def isSensitiveName (nameLower : String) : Bool :=
  SENSITIVE_VARIABLE_PATTERNS.any (fun pat => pyIn pat nameLower)

/-! ## `_check_module_sources` -/

def noSourceFinding (filename mname : String) : Finding :=
  ⟨CRITICAL, filename ++ ": module '" ++ mname ++ "' has no source attribute",
   some "Every module block must specify a source path or registry address"⟩

def localPathFinding (filename mname src : String) : Finding :=
  ⟨WARNING,
   filename ++ ": module '" ++ mname ++ "' references local path '" ++ src ++
     "' but no .tf files found there",
   some "Verify the module source path exists and contains .tf files"⟩

def untrustedSourceFinding (filename mname src : String) : Finding :=
  ⟨WARNING,
   filename ++ ": module '" ++ mname ++ "' uses potentially untrusted source '" ++
     src ++ "'",
   some "Prefer modules from the official Terraform Registry or verified sources"⟩

/-- Body of the innermost loop of `_check_module_sources` for one module
configuration dict.  A non-string truthy `source` raises `AttributeError`
at `source.startswith`. -/
def moduleSourcesConfig (allTfPaths : List String) (filename mname : String)
    (cfg : PObj) : Except PyErr (List Finding) :=
  let source := unwrap1 (.vstr "") (getD cfg "source" (.vstr ""))
  if !truthy source then
    .ok [noSourceFinding filename mname]
  else
    match source with
    | .vstr s =>
      if pyStartsWith s "./" || pyStartsWith s "../" then
        let normalized := rstripSlash s
        let moduleDirPre := lstripCharset "../".data (lstripCharset "./".data normalized)
        let hasFiles := allTfPaths.any (fun p =>
          pyStartsWith p (moduleDirPre ++ "/") || pyStartsWith p (rstripSlash s ++ "/"))
        if !hasFiles then .ok [localPathFinding filename mname s] else .ok []
      else if !(TRUSTED_REGISTRY_PREFIXES.any (fun pre => pyStartsWith s pre)) then
        if !(pyIn "github.com" s) && !(pyIn "terraform.io" s) then
          .ok [untrustedSourceFinding filename mname s]
        else .ok []
      else .ok []
    | _ => .error .attributeError

def moduleSourcesEntry (allTfPaths : List String) (filename : String)
    (e : String × HVal) : Except PyErr (List Finding) :=
  exList (fun cfg =>
      match cfg with
      | .vdict c => moduleSourcesConfig allTfPaths filename e.1 c
      | _ => .ok [])
    (asList e.2)

def moduleSourcesBlock (allTfPaths : List String) (filename : String)
    (blk : HVal) : Except PyErr (List Finding) :=
  match blk with
  | .vdict es => exList (moduleSourcesEntry allTfPaths filename) es
  | _ => .ok []

def moduleSourcesFile (allTfPaths : List String) (fp : String × PObj) :
    Except PyErr (List Finding) :=
  exList (moduleSourcesBlock allTfPaths fp.1) (iterBlocks fp.2 "module")

def _check_module_sources (parsedFiles : List (String × PObj))
    (allTfPaths : List String) : Except PyErr (List Finding) :=
  exList (moduleSourcesFile allTfPaths) parsedFiles

/-! ## `_check_module_required_variables` -/

/-- Python `isinstance(var_config, dict) and "default" in var_config`. -/
def hasDefaultOf : HVal → Bool
  | .vdict es => (assocGet es "default").isSome
  | _ => false

/-- Python `module_vars.setdefault(dir_prefix, {})[var_name] = has_default`. -/
def moduleVarsAdd (mv : List (String × List (String × Bool)))
    (dir varName : String) (hd : Bool) : List (String × List (String × Bool)) :=
  assocSet mv dir (assocSet ((assocGet mv dir).getD []) varName hd)

/-- First pass of `_check_module_required_variables`: the map
`directory_prefix -> {var_name: has_default}`. -/
def buildModuleVars (parsedFiles : List (String × PObj)) :
    List (String × List (String × Bool)) :=
  parsedFiles.foldl
    (fun mv fp =>
      (iterBlocks fp.2 "variable").foldl
        (fun mv vb =>
          match vb with
          | .vdict es =>
            es.foldl
              (fun mv e =>
                (asList e.2).foldl
                  (fun mv vc => moduleVarsAdd mv (dirOf fp.1) e.1 (hasDefaultOf vc))
                  mv)
              mv
          | _ => mv)
        mv)
    []

def meta_keys : List String :=
  ["source", "version", "providers", "depends_on", "count", "for_each"]

def missingVarFinding (filename mname v : String) : Finding :=
  ⟨CRITICAL,
   filename ++ ": module '" ++ mname ++ "' missing required variable '" ++ v ++ "'",
   some ("Pass variable '" ++ v ++ "' to module '" ++ mname ++
         "' -- it has no default value")⟩

/-- The relative-path resolution of `_check_module_required_variables`
(lines 171-180): `source.replace("./", "").replace("../", "").rstrip("/")`,
prefixed with the caller's directory when that is non-empty. -/
def resolveModuleDir (callerDir source : String) : String :=
  let resolved := rstripSlash (pyReplaceDel (pyReplaceDel source "./") "../")
  if callerDir != "" then callerDir ++ "/" ++ resolved else resolved

/-- Body of the second-pass loop of `_check_module_required_variables` for
one module configuration dict. -/
def requiredVarsConfig (moduleVars : List (String × List (String × Bool)))
    (filename mname : String) (cfg : PObj) : Except PyErr (List Finding) :=
  let source := unwrap1 (.vstr "") (getD cfg "source" (.vstr ""))
  match source with
  | .vstr s =>
    if !(pyStartsWith s "./" || pyStartsWith s "../") then .ok []
    else
      let resolvedDir := resolveModuleDir (dirOf filename) s
      match assocGet moduleVars resolvedDir with
      | none => .ok []
      | some vars =>
        let passedArgs := (cfg.map (fun e => e.1)).filter
          (fun k => !(meta_keys.contains k))
        let requiredVars := (vars.filter (fun nv => !nv.2)).map (fun nv => nv.1)
        let missing := sortStrings (requiredVars.filter
          (fun v => !(passedArgs.contains v)))
        .ok (missing.map (missingVarFinding filename mname))
  | _ => .error .attributeError

def requiredVarsEntry (moduleVars : List (String × List (String × Bool)))
    (filename : String) (e : String × HVal) : Except PyErr (List Finding) :=
  exList (fun cfg =>
      match cfg with
      | .vdict c => requiredVarsConfig moduleVars filename e.1 c
      | _ => .ok [])
    (asList e.2)

def requiredVarsBlock (moduleVars : List (String × List (String × Bool)))
    (filename : String) (blk : HVal) : Except PyErr (List Finding) :=
  match blk with
  | .vdict es => exList (requiredVarsEntry moduleVars filename) es
  | _ => .ok []

def requiredVarsFile (moduleVars : List (String × List (String × Bool)))
    (fp : String × PObj) : Except PyErr (List Finding) :=
  exList (requiredVarsBlock moduleVars fp.1) (iterBlocks fp.2 "module")

def _check_module_required_variables (parsedFiles : List (String × PObj)) :
    Except PyErr (List Finding) :=
  exList (requiredVarsFile (buildModuleVars parsedFiles)) parsedFiles

/-! ## `_check_variable_usage` -/

/-- The assignment `declared_vars[var_name] = filename` over all variable blocks of all
parsed files, in file order (later declarations overwrite). -/
def buildDeclaredVars (parsedFiles : List (String × PObj)) :
    List (String × String) :=
  parsedFiles.foldl
    (fun dv fp =>
      (iterBlocks fp.2 "variable").foldl
        (fun dv vb =>
          match vb with
          | .vdict es => es.foldl (fun dv e => assocSet dv e.1 fp.1) dv
          | _ => dv)
        dv)
    []

/-- ASCII word character, the `\w` class of the analyzer's regexes over its
ASCII configuration text. -/
def isWordChar (c : Char) : Bool :=
  (decide ('a' ≤ c) && decide (c ≤ 'z')) || (decide ('A' ≤ c) && decide (c ≤ 'Z')) ||
  (decide ('0' ≤ c) && decide (c ≤ '9')) || c = '_'

/-- Python `re.findall(r"var\.(\w+)", content)`: left-to-right, non-overlapping;
fuel starts at the length of the list and every step consumes at least one
character. -/
def findVarRefsAux : Nat → List Char → List String
  | 0, _ => []
  | _ + 1, [] => []
  | fuel + 1, c :: rest =>
    if c = 'v' then
      match rest with
      | 'a' :: 'r' :: '.' :: rest2 =>
        let name := rest2.takeWhile isWordChar
        if name.isEmpty then findVarRefsAux fuel rest
        else (⟨name⟩ : String) :: findVarRefsAux fuel (rest2.drop name.length)
      | _ => findVarRefsAux fuel rest
    else findVarRefsAux fuel rest

def findVarRefs (s : String) : List String := findVarRefsAux s.data.length s.data

/-- First-occurrence deduplication; used to give the Python `set` of
matched variable names a canonical iteration order (the analyzer only
relies on membership, and on some fixed order for emission). -/
def dedupStr (l : List String) : List String :=
  l.foldl (fun acc x => if acc.contains x then acc else acc ++ [x]) []

def unusedVarFinding (declFile varName : String) : Finding :=
  ⟨INFO,
   declFile ++ ": variable '" ++ varName ++ "' is declared but never referenced",
   some ("Remove unused variable '" ++ varName ++
         "' or confirm it is passed to a module")⟩

def undeclaredVarFinding (varName : String) : Finding :=
  ⟨WARNING,
   "variable '" ++ varName ++ "' is referenced (var." ++ varName ++
     ") but never declared in any variables file",
   some ("Add a variable \"" ++ varName ++ "\" block in variables.tf")⟩

/-- The check `_check_variable_usage(parsed_files, raw_files)`: the raw text scanned
is `" ".join(raw_files.values())` where the entry point passes the whole
input file map (all files, not only `.tf` files). -/
def _check_variable_usage (parsedFiles : List (String × PObj))
    (rawFiles : List (String × String)) : List Finding :=
  let declaredVars := buildDeclaredVars parsedFiles
  let allContent := String.intercalate " " (rawFiles.map (fun fc => fc.2))
  let usedVarNames := dedupStr (findVarRefs allContent)
  (declaredVars.filterMap (fun d =>
    if usedVarNames.contains d.1 then none else some (unusedVarFinding d.2 d.1)))
  ++ (usedVarNames.filterMap (fun n =>
    if (declaredVars.map (fun d => d.1)).contains n then none
    else some (undeclaredVarFinding n)))

/-! ## `_check_output_references` -/

mutual

/-- Python `repr` of a parsed value, as produced inside `str(...)` of a
container.  String escaping inside `repr` is simplified to plain quoting;
none of the verified properties depend on it. -/
def pyReprV : HVal → String
  | .vnull => "None"
  | .vbool b => if b then "True" else "False"
  | .vint n => toString n
  | .vstr s => "'" ++ s ++ "'"
  | .vlist xs => "[" ++ pyReprList xs ++ "]"
  | .vdict es => "\x7b" ++ pyReprDict es ++ "\x7d"

def pyReprList : List HVal → String
  | [] => ""
  | [x] => pyReprV x
  | x :: y :: rest => pyReprV x ++ ", " ++ pyReprList (y :: rest)

def pyReprDict : List (String × HVal) → String
  | [] => ""
  | [e] => "'" ++ e.1 ++ "': " ++ pyReprV e.2
  | e :: e2 :: rest => "'" ++ e.1 ++ "': " ++ pyReprV e.2 ++ ", " ++ pyReprDict (e2 :: rest)

end

/-- Python `str(v)`: the string itself for strings, `repr` rendering for
containers and scalars. -/
def pyStr : HVal → String
  | .vstr s => s
  | v => pyReprV v

/-- One alternative `kw\.\w+` of the output-reference regex at the current
position: the literal keyword, a dot, then at least one word character. -/
def tryRefLit (kw : String) (l : List Char) : Option (String × List Char) :=
  if kw.data.isPrefixOf l then
    match l.drop kw.data.length with
    | '.' :: r2 =>
      let name := r2.takeWhile isWordChar
      if name.isEmpty then none
      else some (kw ++ "." ++ (⟨name⟩ : String), r2.drop name.length)
    | _ => none
  else none

/-- The `aws_\w+\.\w+` alternative of the output-reference regex. -/
def tryRefAws (l : List Char) : Option (String × List Char) :=
  if "aws_".data.isPrefixOf l then
    let t := (l.drop 4).takeWhile isWordChar
    if t.isEmpty then none
    else
      match (l.drop 4).drop t.length with
      | '.' :: r2 =>
        let name := r2.takeWhile isWordChar
        if name.isEmpty then none
        else some ("aws_" ++ (⟨t⟩ : String) ++ "." ++ (⟨name⟩ : String), r2.drop name.length)
      | _ => none
  else none

/-- The regex `(?:module|data|local|aws_\w+)\.\w+` tried at one position,
alternatives in the source's order. -/
def matchRefAt (l : List Char) : Option (String × List Char) :=
  match tryRefLit "module" l with
  | some r => some r
  | none =>
    match tryRefLit "data" l with
    | some r => some r
    | none =>
      match tryRefLit "local" l with
      | some r => some r
      | none => tryRefAws l

/-- Python `re.findall` for the output-reference regex: left-to-right,
non-overlapping; fuel starts at the length of the list. -/
def findRefsAux : Nat → List Char → List String
  | 0, _ => []
  | _ + 1, [] => []
  | fuel + 1, c :: rest =>
    match matchRefAt (c :: rest) with
    | some (ref, after) => ref :: findRefsAux fuel after
    | none => findRefsAux fuel rest

def findOutputRefs (s : String) : List String := findRefsAux s.data.length s.data

def declaredResourcesOf (parsedFiles : List (String × PObj)) : List String :=
  parsedFiles.flatMap (fun fp =>
    (iterBlocks fp.2 "resource").flatMap (fun rb =>
      match rb with
      | .vdict es =>
        es.flatMap (fun te =>
          (asList te.2).flatMap (fun inst =>
            match inst with
            | .vdict is2 => is2.map (fun ne => te.1 ++ "." ++ ne.1)
            | _ => []))
      | _ => []))

def declaredDataSourcesOf (parsedFiles : List (String × PObj)) : List String :=
  parsedFiles.flatMap (fun fp =>
    (iterBlocks fp.2 "data").flatMap (fun rb =>
      match rb with
      | .vdict es =>
        es.flatMap (fun te =>
          (asList te.2).flatMap (fun inst =>
            match inst with
            | .vdict is2 => is2.map (fun ne => "data." ++ te.1 ++ "." ++ ne.1)
            | _ => []))
      | _ => []))

def declaredModulesOf (parsedFiles : List (String × PObj)) : List String :=
  parsedFiles.flatMap (fun fp =>
    (iterBlocks fp.2 "module").flatMap (fun mb =>
      match mb with
      | .vdict es => es.map (fun e => "module." ++ e.1)
      | _ => []))

def declaredLocalsOf (parsedFiles : List (String × PObj)) : List String :=
  parsedFiles.flatMap (fun fp =>
    (iterBlocks fp.2 "locals").flatMap (fun lb =>
      match lb with
      | .vdict es => es.map (fun e => "local." ++ e.1)
      | _ => []))

def outputRefFinding (filename oname ref : String) : Finding :=
  ⟨WARNING,
   filename ++ ": output '" ++ oname ++ "' references '" ++ ref ++
     "' which is not declared",
   some ("Verify that " ++ ref ++ " exists or fix the output value reference")⟩

/-- The per-reference branch chain of `_check_output_references`; reaching
the final branch means none of the three prefixes matched, so the
`not ref.startswith(("module.", "data.", "local."))` guard of the source is
automatically satisfied there. -/
def outputRefConfigFindings (declRes declData declLocals declMods : List String)
    (filename oname : String) (cfg : PObj) : List Finding :=
  let valueStr := pyStr (getD cfg "value" (.vstr ""))
  (findOutputRefs valueStr).filterMap (fun ref =>
    if pyStartsWith ref "module." then
      if !declMods.contains ref then some (outputRefFinding filename oname ref) else none
    else if pyStartsWith ref "data." then
      if !declData.contains ref then some (outputRefFinding filename oname ref) else none
    else if pyStartsWith ref "local." then
      if !declLocals.contains ref then some (outputRefFinding filename oname ref) else none
    else
      if !declRes.contains ref then some (outputRefFinding filename oname ref) else none)

def _check_output_references (parsedFiles : List (String × PObj)) : List Finding :=
  let declRes := declaredResourcesOf parsedFiles
  let declData := declaredDataSourcesOf parsedFiles
  let declMods := declaredModulesOf parsedFiles
  let declLocals := declaredLocalsOf parsedFiles
  parsedFiles.flatMap (fun fp =>
    (iterBlocks fp.2 "output").flatMap (fun ob =>
      match ob with
      | .vdict es =>
        es.flatMap (fun e =>
          (asList e.2).flatMap (fun cfg =>
            match cfg with
            | .vdict c => outputRefConfigFindings declRes declData declLocals declMods fp.1 e.1 c
            | _ => []))
      | _ => []))

/-! ## `_check_sensitive_variables` -/

def lacksSensitiveFinding (filename varName : String) : Finding :=
  ⟨CRITICAL,
   filename ++ ": variable '" ++ varName ++
     "' appears to hold sensitive data but lacks sensitive = true",
   some ("Add 'sensitive = true' to variable '" ++ varName ++
         "' to prevent it from appearing in plan/apply output")⟩

def hardcodedDefaultFinding (filename varName : String) : Finding :=
  ⟨CRITICAL,
   filename ++ ": variable '" ++ varName ++
     "' has a hardcoded default for a sensitive value",
   some ("Remove the default from '" ++ varName ++
         "' -- sensitive values should come from .tfvars or environment variables")⟩

/-- Python `sensitive_flag = var_config.get("sensitive", [False])`, unwrapped. -/
def sensitiveFlagOf (cfg : PObj) : HVal :=
  unwrap1 (.vbool false) (getD cfg "sensitive" (.vlist [.vbool false]))

/-- Python `default_val = var_config.get("default", None)`, unwrapped. -/
def defaultValOf (cfg : PObj) : HVal :=
  unwrap1 .vnull (getD cfg "default" .vnull)

/-- Python `default_val is not None and default_val != "" and default_val != []`. -/
def nonEmptyDefault (cfg : PObj) : Bool :=
  !(isNull (defaultValOf cfg)) && !(eqEmptyStr (defaultValOf cfg)) &&
    !(eqEmptyList (defaultValOf cfg))

/-- Body of the innermost loop of `_check_sensitive_variables` for one
variable configuration (skips non-dict configurations). -/
def sensVarConfigFindings (filename varName : String) : HVal → List Finding
  | .vdict cfg =>
    (if !truthy (sensitiveFlagOf cfg) then [lacksSensitiveFinding filename varName]
     else []) ++
    (if nonEmptyDefault cfg then [hardcodedDefaultFinding filename varName] else [])
  | _ => []

/-- One `(var_name, var_config_list)` entry of a variable block. -/
def sensVarEntryFindings (filename : String) (e : String × HVal) : List Finding :=
  if isSensitiveName (pyLower e.1) then
    (asList e.2).flatMap (sensVarConfigFindings filename e.1)
  else []

def _check_sensitive_variables (parsedFiles : List (String × PObj)) : List Finding :=
  parsedFiles.flatMap (fun fp =>
    (iterBlocks fp.2 "variable").flatMap (fun vb =>
      match vb with
      | .vdict es => es.flatMap (sensVarEntryFindings fp.1)
      | _ => []))

/-! ## `_check_sensitive_outputs` -/

def sensitiveOutputFinding (filename oname : String) : Finding :=
  ⟨CRITICAL,
   filename ++ ": output '" ++ oname ++
     "' may expose sensitive data without sensitive = true",
   some ("Add 'sensitive = true' to output '" ++ oname ++
         "' or remove the sensitive reference")⟩

def sensOutConfigFindings (filename oname : String) : HVal → List Finding
  | .vdict cfg =>
    let valueStr := pyLower (pyStr (getD cfg "value" (.vstr "")))
    let isSens :=
      if isSensitiveName valueStr then true else isSensitiveName (pyLower oname)
    if !isSens then []
    else if !truthy (sensitiveFlagOf cfg) then [sensitiveOutputFinding filename oname]
    else []
  | _ => []

def _check_sensitive_outputs (parsedFiles : List (String × PObj)) : List Finding :=
  parsedFiles.flatMap (fun fp =>
    (iterBlocks fp.2 "output").flatMap (fun ob =>
      match ob with
      | .vdict es =>
        es.flatMap (fun e => (asList e.2).flatMap (sensOutConfigFindings fp.1 e.1))
      | _ => []))

/-! ## `_check_tfvars_secrets` -/

/-- The `\s` class of Python regexes, over ASCII text. -/
def isPySpace (c : Char) : Bool :=
  c = ' ' || c = '\t' || c = '\n' || c = '\x0d' || c = '\x0b' || c = '\x0c'

/-- Case-insensitive literal match of an (already lowercase) keyword
against the head of the text. -/
def ciPrefixOf : List Char → List Char → Bool
  | [], _ => true
  | _ :: _, [] => false
  | k :: ks, c :: cs => k = c.toLower && ciPrefixOf ks cs

/-- The value shape `"[^${}][^"]{3,}"` after the opening quote: one character outside
`{$, \x7b, \x7d}`, at least three further non-quote characters, then a
closing quote.  The quantifiers are deterministic here: `[^"]` can never
consume the closing quote. -/
def secretValueTail : List Char → Bool
  | [] => false
  | c1 :: rest =>
    if c1 = '$' || c1 = '\x7b' || c1 = '\x7d' then false
    else
      let run := rest.takeWhile (fun c => !(c = '"'))
      decide (run.length ≥ 3) &&
        (match rest.drop run.length with
         | '"' :: _ => true
         | _ => false)

/-- The regex piece `\s*=\s*"` then the value shape, after a matched keyword. -/
def secretAfterKw (l : List Char) : Bool :=
  match l.dropWhile isPySpace with
  | '=' :: l2 =>
    (match l2.dropWhile isPySpace with
     | '"' :: l4 => secretValueTail l4
     | _ => false)
  | _ => false

/-- The keyword alternation of the tfvars secret regex tried at one
position (case-insensitive). -/
def secretHitAt (l : List Char) : Bool :=
  ["password", "secret", "api_key", "access_key", "token"].any
    (fun kw => ciPrefixOf kw.data l && secretAfterKw (l.drop kw.data.length))

/-- Python `re.search` for the tfvars secret-assignment regex: a hit at any
position. -/
def secretHitList : List Char → Bool
  | [] => false
  | c :: rest => secretHitAt (c :: rest) || secretHitList rest

def hasSecretAssignment (s : String) : Bool := secretHitList s.data

def isUpperAlnum (c : Char) : Bool :=
  (decide ('0' ≤ c) && decide (c ≤ '9')) || (decide ('A' ≤ c) && decide (c ≤ 'Z'))

/-- The pattern `AKIA[0-9A-Z]{16}` at the current position. -/
def akiaAt (l : List Char) : Bool :=
  "AKIA".data.isPrefixOf l &&
    decide (((l.drop 4).take 16).length = 16) && ((l.drop 4).take 16).all isUpperAlnum

def akiaHitList : List Char → Bool
  | [] => false
  | c :: rest => akiaAt (c :: rest) || akiaHitList rest

def hasAwsAccessKeyId (s : String) : Bool := akiaHitList s.data

def tfvarsRecommendation : String :=
  "Never store secrets in .tfvars files. Use environment variables, " ++
  "AWS Secrets Manager, or a secrets management tool"

def tfvarsSecretFinding (filename : String) : Finding :=
  ⟨CRITICAL, filename ++ ": Hardcoded secret in tfvars", some tfvarsRecommendation⟩

def tfvarsAkiaFinding (filename : String) : Finding :=
  ⟨CRITICAL, filename ++ ": AWS Access Key ID in tfvars", some tfvarsRecommendation⟩

/-- The check `_check_tfvars_secrets(raw_files)`: extension-scoped scan of the raw
contents; both patterns are tried in order and each contributes at most one
finding per file. -/
def _check_tfvars_secrets (rawFiles : List (String × String)) : List Finding :=
  rawFiles.flatMap (fun fc =>
    if !pyEndsWith fc.1 ".tfvars" then []
    else
      (if hasSecretAssignment fc.2 then [tfvarsSecretFinding fc.1] else []) ++
      (if hasAwsAccessKeyId fc.2 then [tfvarsAkiaFinding fc.1] else []))

/-! ## `_check_untrusted_module_sources` -/

def vcsPinFinding (filename mname : String) : Finding :=
  ⟨WARNING,
   filename ++ ": module '" ++ mname ++ "' uses git source without version pinning",
   some "Pin module to a specific git tag or commit hash using ?ref=v1.0.0"⟩

def noVersionFinding (filename mname : String) : Finding :=
  ⟨WARNING,
   filename ++ ": module '" ++ mname ++ "' has no version constraint",
   some "Pin registry modules with a version constraint (e.g., version = \"~> 3.0\")"⟩

/-- Body of the innermost loop of `_check_untrusted_module_sources` for one
module configuration dict.  A non-string `source` raises `TypeError` at the
first `in` test; `version` is only used through truthiness, so its type is
irrelevant. -/
def untrustedConfigFindings (filename mname : String) (cfg : PObj) :
    Except PyErr (List Finding) :=
  let source := unwrap1 (.vstr "") (getD cfg "source" (.vstr ""))
  let version := unwrap1 (.vstr "") (getD cfg "version" (.vstr ""))
  match source with
  | .vstr s =>
    .ok
      ((if (pyIn "git::" s || (pyIn "github.com" s && pyIn "git" s)) &&
            !(pyIn "?ref=" s) && !(truthy version) then
          [vcsPinFinding filename mname]
        else []) ++
       (if !(pyStartsWith s "./") && !(pyStartsWith s "../") &&
            !(pyIn "git::" s) && !(pyIn "github.com" s) &&
            !(s.isEmpty) && !(truthy version) then
          [noVersionFinding filename mname]
        else []))
  | _ => .error .typeError

def untrustedEntry (filename : String) (e : String × HVal) :
    Except PyErr (List Finding) :=
  exList (fun cfg =>
      match cfg with
      | .vdict c => untrustedConfigFindings filename e.1 c
      | _ => .ok [])
    (asList e.2)

def untrustedBlock (filename : String) (blk : HVal) : Except PyErr (List Finding) :=
  match blk with
  | .vdict es => exList (untrustedEntry filename) es
  | _ => .ok []

def untrustedFile (fp : String × PObj) : Except PyErr (List Finding) :=
  exList (untrustedBlock fp.1) (iterBlocks fp.2 "module")

def _check_untrusted_module_sources (parsedFiles : List (String × PObj)) :
    Except PyErr (List Finding) :=
  exList untrustedFile parsedFiles

/-! ## `_generate_cost_summary` -/

/-- The closed cost-tier enumeration of `RESOURCE_COST_MAP`. -/
inductive CostTier where
  | low : CostTier
  | medium : CostTier
  | high : CostTier
  | veryHigh : CostTier
deriving DecidableEq, Repr

def CostTier.render : CostTier → String
  | .low => "low"
  | .medium => "medium"
  | .high => "high"
  | .veryHigh => "very_high"

/-- The table `resource_type -> (cost_tier, label, est_monthly_low, est_monthly_high)`. -/
def RESOURCE_COST_MAP : List (String × (CostTier × String × Int × Int)) :=
  [("aws_nat_gateway", (.high, "NAT Gateway", 32, 100)),
   ("aws_instance", (.medium, "EC2 Instance", 10, 500)),
   ("aws_db_instance", (.high, "RDS Instance", 25, 1000)),
   ("aws_db_cluster", (.veryHigh, "RDS Aurora Cluster", 50, 2000)),
   ("aws_eks_cluster", (.veryHigh, "EKS Cluster", 73, 500)),
   ("aws_eks_node_group", (.high, "EKS Node Group", 50, 2000)),
   ("aws_elasticache_cluster", (.high, "ElastiCache Cluster", 25, 500)),
   ("aws_cloudfront_distribution", (.medium, "CloudFront Distribution", 1, 500)),
   ("aws_lambda_function", (.low, "Lambda Function", 0, 50)),
   ("aws_s3_bucket", (.low, "S3 Bucket", 0, 100)),
   ("aws_sqs_queue", (.low, "SQS Queue", 0, 10)),
   ("aws_sns_topic", (.low, "SNS Topic", 0, 10)),
   ("aws_eip", (.low, "Elastic IP", 4, 4)),
   ("aws_ecs_cluster", (.medium, "ECS Cluster", 0, 200)),
   ("aws_ecs_service", (.medium, "ECS Service (Fargate)", 10, 500)),
   ("aws_vpc", (.low, "VPC", 0, 0)),
   ("aws_subnet", (.low, "Subnet", 0, 0)),
   ("aws_iam_role", (.low, "IAM Role", 0, 0))]

def assocGetCost : List (String × (CostTier × String × Int × Int)) → String →
    Option (CostTier × String × Int × Int)
  | [], _ => none
  | (k2, v) :: rest, k => if k2 = k then some v else assocGetCost rest k

structure CostEntry where
  resource_type : String
  resource_name : String
  cost_tier : CostTier
  label : String
  estimated_monthly_range_usd : String
  filename : String
deriving DecidableEq, Repr

structure TierSummary where
  low : Nat
  medium : Nat
  high : Nat
  very_high : Nat
deriving DecidableEq, Repr

def tierBump (t : TierSummary) : CostTier → TierSummary
  | .low => { t with low := t.low + 1 }
  | .medium => { t with medium := t.medium + 1 }
  | .high => { t with high := t.high + 1 }
  | .veryHigh => { t with very_high := t.very_high + 1 }

structure CostSummary where
  resource_costs : List CostEntry
  tier_summary : TierSummary
  estimated_monthly_total_usd : String
  cost_findings : List Finding
deriving DecidableEq, Repr

/-- The resource-detection pass of `_generate_cost_summary`; resource types
absent from `RESOURCE_COST_MAP` contribute nothing. -/
def resourceCostsOf (parsedFiles : List (String × PObj)) : List CostEntry :=
  parsedFiles.flatMap (fun fp =>
    (iterBlocks fp.2 "resource").flatMap (fun rb =>
      match rb with
      | .vdict es =>
        es.flatMap (fun te =>
          match assocGetCost RESOURCE_COST_MAP te.1 with
          | none => []
          | some (tier, label, lo, hi) =>
            (asList te.2).flatMap (fun inst =>
              match inst with
              | .vdict is2 =>
                is2.map (fun ne =>
                  ⟨te.1, ne.1, tier, label,
                   "$" ++ toString lo ++ "-$" ++ toString hi, fp.1⟩)
              | _ => []))
      | _ => []))

def costFinding (rc : CostEntry) : Finding :=
  ⟨(if rc.cost_tier = .high then WARNING else CRITICAL),
   rc.filename ++ ": " ++ rc.label ++ " (" ++ rc.resource_type ++ "." ++
     rc.resource_name ++ ") is a " ++ rc.cost_tier.render ++ "-cost resource (" ++
     rc.estimated_monthly_range_usd ++ "/mo)",
   some ("Review if " ++ rc.resource_type ++ "." ++ rc.resource_name ++
         " is right-sized. Consider reserved capacity or smaller instance " ++
         "types for non-production use")⟩

def _generate_cost_summary (parsedFiles : List (String × PObj)) : CostSummary :=
  let resourceCosts := resourceCostsOf parsedFiles
  let tierCounts := resourceCosts.foldl (fun t rc => tierBump t rc.cost_tier) ⟨0, 0, 0, 0⟩
  -- the re-lookup of `RESOURCE_COST_MAP[rc["resource_type"]]` cannot fail:
  -- every entry's type originates from the map
  let totalLow := resourceCosts.foldl
    (fun acc rc => acc + (((assocGetCost RESOURCE_COST_MAP rc.resource_type).getD
      (.low, "", 0, 0)).2.2.1)) 0
  let totalHigh := resourceCosts.foldl
    (fun acc rc => acc + (((assocGetCost RESOURCE_COST_MAP rc.resource_type).getD
      (.low, "", 0, 0)).2.2.2)) 0
  let costFindings := resourceCosts.filterMap (fun rc =>
    if rc.cost_tier = .high ∨ rc.cost_tier = .veryHigh then some (costFinding rc)
    else none)
  ⟨resourceCosts, tierCounts, "$" ++ toString totalLow ++ "-$" ++ toString totalHigh,
   costFindings⟩

/-! ## `analyze_terraform_modules` -/

def parseFailFinding (name : String) : Finding :=
  ⟨INFO,
   name ++ ": could not parse HCL2 (syntax issue or python-hcl2 unavailable)",
   some "Validate Terraform syntax with 'terraform validate'"⟩

structure SeveritySummary where
  critical : Nat
  warning : Nat
  info : Nat
deriving DecidableEq, Repr

structure ReportCostSummary where
  resource_costs : List CostEntry
  tier_summary : TierSummary
  estimated_monthly_total_usd : String
deriving DecidableEq, Repr

structure Report where
  analysis_type : String
  files_analyzed : List String
  maturity_level : String
  module_findings : List Finding
  security_findings : List Finding
  cost_summary : ReportCostSummary
  findings : List String
  risks : List String
  recommended_improvements : List (Option String)
  detailed_findings : List Finding
  severity_summary : SeveritySummary
deriving DecidableEq, Repr

/-- Python `list(dict.fromkeys(...))`: drop duplicates, keeping the first
occurrence of each element. -/
def dedupFirst {α : Type} [BEq α] (l : List α) : List α :=
  l.foldl (fun acc x => if acc.contains x then acc else acc ++ [x]) []

/-- The aggregation tail of `analyze_terraform_modules` (lines 728-763),
given the input file map, the already-collected findings and the cost
summary. -/
def buildReport (files : List (String × String)) (cost : CostSummary)
    (parseFindings moduleFindings securityFindings : List Finding) : Report :=
  let allFindings := parseFindings ++ moduleFindings ++ securityFindings ++
    cost.cost_findings
  let critical := allFindings.filter (fun f => f.severity == CRITICAL)
  let warnings := allFindings.filter (fun f => f.severity == WARNING)
  let info := allFindings.filter (fun f => f.severity == INFO)
  { analysis_type := "terraform-module-analysis"
    files_analyzed := files.map (fun fc => fc.1)
    maturity_level :=
      if critical.length = 0 ∧ warnings.length = 0 then "production-leaning"
      else if critical.length = 0 ∧ warnings.length ≤ 3 then "developing"
      else "basic"
    module_findings := moduleFindings
    security_findings := securityFindings
    cost_summary := ⟨cost.resource_costs, cost.tier_summary,
      cost.estimated_monthly_total_usd⟩
    findings := info.map (fun f => f.message)
    risks := (critical ++ warnings).map (fun f => f.message)
    recommended_improvements := dedupFirst (allFindings.map (fun f => f.recommendation))
    detailed_findings := allFindings
    severity_summary := ⟨critical.length, warnings.length, info.length⟩ }

/-- The public entry point, parameterized by the external HCL2 parser
(`_parse_tf_content`); an empty object models the falsy `{}` returned on
parse failure.  Exceptions escaping the checkers propagate to the caller in
source order. -/
def analyze_terraform_modules (parse : String → PObj)
    (files : List (String × String)) : Except PyErr Report :=
  let tfFiles := files.filter (fun nc => pyEndsWith nc.1 ".tf")
  let allTfPaths := tfFiles.map (fun nc => nc.1)
  let parsedResults := tfFiles.map (fun nc => (nc.1, parse nc.2))
  let parsedFiles := parsedResults.filter (fun np => !np.2.isEmpty)
  let parseFindings := parsedResults.filterMap (fun np =>
    if np.2.isEmpty then some (parseFailFinding np.1) else none)
  match _check_module_sources parsedFiles allTfPaths with
  | .error e => .error e
  | .ok mf1 =>
    match _check_module_required_variables parsedFiles with
    | .error e => .error e
    | .ok mf2 =>
      let moduleFindings := mf1 ++ mf2 ++ _check_variable_usage parsedFiles files ++
        _check_output_references parsedFiles
      match _check_untrusted_module_sources parsedFiles with
      | .error e => .error e
      | .ok sf4 =>
        let securityFindings := _check_sensitive_variables parsedFiles ++
          _check_sensitive_outputs parsedFiles ++ _check_tfvars_secrets files ++ sf4
        .ok (buildReport files (_generate_cost_summary parsedFiles)
          parseFindings moduleFindings securityFindings)

/-! ## Finding well-formedness: every emitted finding carries one of the
three closed severities and a non-null recommendation. -/

def wfFinding (f : Finding) : Prop :=
  (f.severity = CRITICAL ∨ f.severity = WARNING ∨ f.severity = INFO) ∧
    f.recommendation ≠ none

theorem wf_noSourceFinding (fn mn : String) : wfFinding (noSourceFinding fn mn) :=
  ⟨Or.inl rfl, fun h => Option.noConfusion h⟩

theorem wf_localPathFinding (fn mn s : String) : wfFinding (localPathFinding fn mn s) :=
  ⟨Or.inr (Or.inl rfl), fun h => Option.noConfusion h⟩

theorem wf_untrustedSourceFinding (fn mn s : String) :
    wfFinding (untrustedSourceFinding fn mn s) :=
  ⟨Or.inr (Or.inl rfl), fun h => Option.noConfusion h⟩

theorem wf_missingVarFinding (fn mn v : String) : wfFinding (missingVarFinding fn mn v) :=
  ⟨Or.inl rfl, fun h => Option.noConfusion h⟩

theorem wf_unusedVarFinding (fn v : String) : wfFinding (unusedVarFinding fn v) :=
  ⟨Or.inr (Or.inr rfl), fun h => Option.noConfusion h⟩

theorem wf_undeclaredVarFinding (v : String) : wfFinding (undeclaredVarFinding v) :=
  ⟨Or.inr (Or.inl rfl), fun h => Option.noConfusion h⟩

theorem wf_outputRefFinding (fn o r : String) : wfFinding (outputRefFinding fn o r) :=
  ⟨Or.inr (Or.inl rfl), fun h => Option.noConfusion h⟩

theorem wf_lacksSensitiveFinding (fn v : String) : wfFinding (lacksSensitiveFinding fn v) :=
  ⟨Or.inl rfl, fun h => Option.noConfusion h⟩

theorem wf_hardcodedDefaultFinding (fn v : String) :
    wfFinding (hardcodedDefaultFinding fn v) :=
  ⟨Or.inl rfl, fun h => Option.noConfusion h⟩

theorem wf_sensitiveOutputFinding (fn o : String) :
    wfFinding (sensitiveOutputFinding fn o) :=
  ⟨Or.inl rfl, fun h => Option.noConfusion h⟩

theorem wf_tfvarsSecretFinding (fn : String) : wfFinding (tfvarsSecretFinding fn) :=
  ⟨Or.inl rfl, fun h => Option.noConfusion h⟩

theorem wf_tfvarsAkiaFinding (fn : String) : wfFinding (tfvarsAkiaFinding fn) :=
  ⟨Or.inl rfl, fun h => Option.noConfusion h⟩

theorem wf_vcsPinFinding (fn mn : String) : wfFinding (vcsPinFinding fn mn) :=
  ⟨Or.inr (Or.inl rfl), fun h => Option.noConfusion h⟩

theorem wf_noVersionFinding (fn mn : String) : wfFinding (noVersionFinding fn mn) :=
  ⟨Or.inr (Or.inl rfl), fun h => Option.noConfusion h⟩

theorem wf_parseFailFinding (fn : String) : wfFinding (parseFailFinding fn) :=
  ⟨Or.inr (Or.inr rfl), fun h => Option.noConfusion h⟩

theorem wf_costFinding (rc : CostEntry) : wfFinding (costFinding rc) := by
  refine ⟨?_, fun h => Option.noConfusion h⟩
  by_cases h : rc.cost_tier = CostTier.high <;> simp [costFinding, h]

/-! ## Generic inversion lemmas -/

theorem exList_ok_forall {α : Type} {g : α → Except PyErr (List Finding)}
    {P : Finding → Prop} (hg : ∀ x fs, g x = .ok fs → ∀ f ∈ fs, P f) :
    ∀ (l : List α) (out : List Finding), exList g l = .ok out → ∀ f ∈ out, P f := by
  intro l
  induction l with
  | nil =>
    intro out h f hf
    simp only [exList, Except.ok.injEq] at h
    subst h
    simp at hf
  | cons x xs ih =>
    intro out h f hf
    simp only [exList] at h
    cases hx : g x with
    | error e => rw [hx] at h; exact absurd h (by simp)
    | ok fs =>
      rw [hx] at h
      cases hxs : exList g xs with
      | error e => rw [hxs] at h; exact absurd h (by simp)
      | ok rest =>
        rw [hxs] at h
        simp only [Except.ok.injEq] at h
        subst h
        rcases List.mem_append.1 hf with h1 | h2
        · exact hg x fs hx f h1
        · exact ih rest hxs f h2

theorem mem_of_mem_dedupFirst {α : Type} [BEq α] {x : α} :
    ∀ (l acc : List α),
      x ∈ l.foldl (fun acc y => if acc.contains y then acc else acc ++ [y]) acc →
      x ∈ acc ∨ x ∈ l := by
  intro l
  induction l with
  | nil => intro acc h; exact Or.inl h
  | cons y ys ih =>
    intro acc h
    rcases ih _ h with h1 | h1
    · by_cases hc : acc.contains y
      · simp only [hc, if_true] at h1
        exact Or.inl h1
      · simp only [hc, if_false] at h1
        rcases List.mem_append.1 h1 with h2 | h2
        · exact Or.inl h2
        · simp at h2
          subst h2
          exact Or.inr (List.mem_cons_self _ _)
    · exact Or.inr (List.mem_cons_of_mem _ h1)

theorem mem_dedupFirst_iff_aux {α : Type} [BEq α] {x : α} {l : List α}
    (h : x ∈ dedupFirst l) : x ∈ l := by
  rcases mem_of_mem_dedupFirst l [] h with h1 | h1
  · simp at h1
  · exact h1

/-- Distinct suffixes after a common prefix give distinct strings. -/
theorem appendRightNe (p : String) {a b : String} (h : a ≠ b) : p ++ a ≠ p ++ b := by
  intro he
  apply h
  apply String.ext
  have hd : (p ++ a).data = (p ++ b).data := congrArg String.data he
  rw [String.data_append, String.data_append] at hd
  exact List.append_cancel_left hd

/-! ## Per-checker well-formedness -/

theorem wf_moduleSourcesConfig {paths : List String} {fn mn : String} {cfg : PObj}
    {l : List Finding} (h : moduleSourcesConfig paths fn mn cfg = .ok l) :
    ∀ f ∈ l, wfFinding f := by
  intro f hf
  simp only [moduleSourcesConfig] at h
  split at h
  · simp only [Except.ok.injEq] at h
    subst h
    simp at hf
    subst hf
    exact wf_noSourceFinding fn mn
  · split at h
    · split at h
      · split at h <;> simp only [Except.ok.injEq] at h <;> subst h <;> simp at hf
        subst hf
        exact wf_localPathFinding fn mn _
      · split at h
        · split at h <;> simp only [Except.ok.injEq] at h <;> subst h <;> simp at hf
          subst hf
          exact wf_untrustedSourceFinding fn mn _
        · simp only [Except.ok.injEq] at h
          subst h
          simp at hf
    · exact absurd h (by simp)

theorem wf_check_module_sources {pf : List (String × PObj)} {paths : List String}
    {out : List Finding} (h : _check_module_sources pf paths = .ok out) :
    ∀ f ∈ out, wfFinding f := by
  refine exList_ok_forall (fun fp fs hfp => ?_) pf out h
  refine exList_ok_forall (fun blk fs2 hblk => ?_) _ fs hfp
  unfold moduleSourcesBlock at hblk
  split at hblk
  · refine exList_ok_forall (fun e fs3 he => ?_) _ fs2 hblk
    unfold moduleSourcesEntry at he
    refine exList_ok_forall (fun cfg fs4 hcfg => ?_) _ fs3 he
    split at hcfg
    · exact wf_moduleSourcesConfig hcfg
    · simp only [Except.ok.injEq] at hcfg
      subst hcfg
      intro f hf
      simp at hf
  · simp only [Except.ok.injEq] at hblk
    subst hblk
    intro f hf
    simp at hf

theorem wf_requiredVarsConfig {mv : List (String × List (String × Bool))}
    {fn mn : String} {cfg : PObj} {l : List Finding}
    (h : requiredVarsConfig mv fn mn cfg = .ok l) : ∀ f ∈ l, wfFinding f := by
  intro f hf
  simp only [requiredVarsConfig] at h
  split at h
  · split at h
    · simp only [Except.ok.injEq] at h
      subst h
      simp at hf
    · split at h
      · simp only [Except.ok.injEq] at h
        subst h
        simp at hf
      · simp only [Except.ok.injEq] at h
        subst h
        rcases List.mem_map.1 hf with ⟨v, _, hv⟩
        subst hv
        exact wf_missingVarFinding fn mn v
  · exact absurd h (by simp)

theorem wf_check_module_required_variables {pf : List (String × PObj)}
    {out : List Finding} (h : _check_module_required_variables pf = .ok out) :
    ∀ f ∈ out, wfFinding f := by
  refine exList_ok_forall (fun fp fs hfp => ?_) pf out h
  refine exList_ok_forall (fun blk fs2 hblk => ?_) _ fs hfp
  unfold requiredVarsBlock at hblk
  split at hblk
  · refine exList_ok_forall (fun e fs3 he => ?_) _ fs2 hblk
    unfold requiredVarsEntry at he
    refine exList_ok_forall (fun cfg fs4 hcfg => ?_) _ fs3 he
    split at hcfg
    · exact wf_requiredVarsConfig hcfg
    · simp only [Except.ok.injEq] at hcfg
      subst hcfg
      intro f hf
      simp at hf
  · simp only [Except.ok.injEq] at hblk
    subst hblk
    intro f hf
    simp at hf

theorem wf_check_variable_usage (pf : List (String × PObj))
    (raw : List (String × String)) :
    ∀ f ∈ _check_variable_usage pf raw, wfFinding f := by
  intro f hf
  unfold _check_variable_usage at hf
  rcases List.mem_append.1 hf with h | h
  · rcases List.mem_filterMap.1 h with ⟨d, _, hd⟩
    split at hd
    · simp at hd
    · simp only [Option.some.injEq] at hd
      subst hd
      exact wf_unusedVarFinding _ _
  · rcases List.mem_filterMap.1 h with ⟨n, _, hn⟩
    split at hn
    · simp at hn
    · simp only [Option.some.injEq] at hn
      subst hn
      exact wf_undeclaredVarFinding _

theorem wf_outputRefConfigFindings (declRes declData declLocals declMods : List String)
    (fn o : String) (cfg : PObj) :
    ∀ f ∈ outputRefConfigFindings declRes declData declLocals declMods fn o cfg,
      wfFinding f := by
  intro f hf
  simp only [outputRefConfigFindings] at hf
  rcases List.mem_filterMap.1 hf with ⟨ref, _, hr⟩
  repeat' split at hr
  all_goals first
    | (simp only [Option.some.injEq] at hr; subst hr; exact wf_outputRefFinding _ _ _)
    | simp at hr

theorem wf_check_output_references (pf : List (String × PObj)) :
    ∀ f ∈ _check_output_references pf, wfFinding f := by
  intro f hf
  simp only [_check_output_references] at hf
  rcases List.mem_flatMap.1 hf with ⟨fp, _, h1⟩
  rcases List.mem_flatMap.1 h1 with ⟨ob, _, h2⟩
  rcases ob with _ | _ | _ | _ | _ | es
  case vdict =>
    rcases List.mem_flatMap.1 h2 with ⟨e, _, h3⟩
    rcases List.mem_flatMap.1 h3 with ⟨cfg, _, h4⟩
    rcases cfg with _ | _ | _ | _ | _ | c
    case vdict => exact wf_outputRefConfigFindings _ _ _ _ _ _ _ f h4
    all_goals exact absurd h4 (List.not_mem_nil f)
  all_goals exact absurd h2 (List.not_mem_nil f)

theorem wf_sensVarConfigFindings (fn n : String) (v : HVal) :
    ∀ f ∈ sensVarConfigFindings fn n v, wfFinding f := by
  intro f hf
  rcases v with _ | _ | _ | _ | _ | cfg
  case vdict =>
    simp only [sensVarConfigFindings] at hf
    rcases List.mem_append.1 hf with h | h <;> split at h <;>
      first
        | (simp at h; subst h;
           first
             | exact wf_lacksSensitiveFinding fn n
             | exact wf_hardcodedDefaultFinding fn n)
        | simp at h
  all_goals exact absurd hf (List.not_mem_nil f)

theorem wf_check_sensitive_variables (pf : List (String × PObj)) :
    ∀ f ∈ _check_sensitive_variables pf, wfFinding f := by
  intro f hf
  simp only [_check_sensitive_variables] at hf
  rcases List.mem_flatMap.1 hf with ⟨fp, _, h1⟩
  rcases List.mem_flatMap.1 h1 with ⟨vb, _, h2⟩
  rcases vb with _ | _ | _ | _ | _ | es
  case vdict =>
    rcases List.mem_flatMap.1 h2 with ⟨e, _, h3⟩
    simp only [sensVarEntryFindings] at h3
    split at h3
    · rcases List.mem_flatMap.1 h3 with ⟨cfg, _, h4⟩
      exact wf_sensVarConfigFindings _ _ _ f h4
    · exact absurd h3 (List.not_mem_nil f)
  all_goals exact absurd h2 (List.not_mem_nil f)

theorem wf_sensOutConfigFindings (fn o : String) (v : HVal) :
    ∀ f ∈ sensOutConfigFindings fn o v, wfFinding f := by
  intro f hf
  rcases v with _ | _ | _ | _ | _ | cfg
  case vdict =>
    simp only [sensOutConfigFindings] at hf
    repeat' split at hf
    all_goals first
      | (simp at hf; subst hf; exact wf_sensitiveOutputFinding fn o)
      | exact absurd hf (List.not_mem_nil f)
  all_goals exact absurd hf (List.not_mem_nil f)

theorem wf_check_sensitive_outputs (pf : List (String × PObj)) :
    ∀ f ∈ _check_sensitive_outputs pf, wfFinding f := by
  intro f hf
  simp only [_check_sensitive_outputs] at hf
  rcases List.mem_flatMap.1 hf with ⟨fp, _, h1⟩
  rcases List.mem_flatMap.1 h1 with ⟨ob, _, h2⟩
  rcases ob with _ | _ | _ | _ | _ | es
  case vdict =>
    rcases List.mem_flatMap.1 h2 with ⟨e, _, h3⟩
    rcases List.mem_flatMap.1 h3 with ⟨cfg, _, h4⟩
    exact wf_sensOutConfigFindings _ _ _ f h4
  all_goals exact absurd h2 (List.not_mem_nil f)

theorem wf_check_tfvars_secrets (raw : List (String × String)) :
    ∀ f ∈ _check_tfvars_secrets raw, wfFinding f := by
  intro f hf
  unfold _check_tfvars_secrets at hf
  rcases List.mem_flatMap.1 hf with ⟨fc, _, h1⟩
  split at h1
  · simp at h1
  · rcases List.mem_append.1 h1 with h2 | h2 <;> split at h2 <;> simp at h2 <;> subst h2
    · exact wf_tfvarsSecretFinding _
    · exact wf_tfvarsAkiaFinding _

theorem wf_untrustedConfigFindings {fn mn : String} {cfg : PObj} {l : List Finding}
    (h : untrustedConfigFindings fn mn cfg = .ok l) : ∀ f ∈ l, wfFinding f := by
  intro f hf
  simp only [untrustedConfigFindings] at h
  split at h
  · simp only [Except.ok.injEq] at h
    subst h
    rcases List.mem_append.1 hf with h1 | h1 <;> split at h1 <;> simp at h1 <;> subst h1
    · exact wf_vcsPinFinding fn mn
    · exact wf_noVersionFinding fn mn
  · exact absurd h (by simp)

theorem wf_check_untrusted_module_sources {pf : List (String × PObj)}
    {out : List Finding} (h : _check_untrusted_module_sources pf = .ok out) :
    ∀ f ∈ out, wfFinding f := by
  refine exList_ok_forall (fun fp fs hfp => ?_) pf out h
  refine exList_ok_forall (fun blk fs2 hblk => ?_) _ fs hfp
  unfold untrustedBlock at hblk
  split at hblk
  · refine exList_ok_forall (fun e fs3 he => ?_) _ fs2 hblk
    unfold untrustedEntry at he
    refine exList_ok_forall (fun cfg fs4 hcfg => ?_) _ fs3 he
    split at hcfg
    · exact wf_untrustedConfigFindings hcfg
    · simp only [Except.ok.injEq] at hcfg
      subst hcfg
      intro f hf
      simp at hf
  · simp only [Except.ok.injEq] at hblk
    subst hblk
    intro f hf
    simp at hf

theorem wf_cost_findings (pf : List (String × PObj)) :
    ∀ f ∈ (_generate_cost_summary pf).cost_findings, wfFinding f := by
  intro f hf
  simp only [_generate_cost_summary] at hf
  rcases List.mem_filterMap.1 hf with ⟨rc, _, hrc⟩
  split at hrc
  · simp only [Option.some.injEq] at hrc
    subst hrc
    exact wf_costFinding rc
  · simp at hrc

theorem wf_parse_findings (parsedResults : List (String × PObj)) :
    ∀ f ∈ parsedResults.filterMap (fun np =>
      if np.2.isEmpty then some (parseFailFinding np.1) else none), wfFinding f := by
  intro f hf
  rcases List.mem_filterMap.1 hf with ⟨np, _, hnp⟩
  split at hnp
  · simp only [Option.some.injEq] at hnp
    subst hnp
    exact wf_parseFailFinding _
  · simp at hnp

/-! ## Aggregation lemmas -/

/-- On a list of well-formed findings, the three severity buckets
partition the list. -/
theorem count_three (l : List Finding) (h : ∀ f ∈ l, wfFinding f) :
    (l.filter (fun f => f.severity == CRITICAL)).length +
      (l.filter (fun f => f.severity == WARNING)).length +
      (l.filter (fun f => f.severity == INFO)).length = l.length := by
  have c1 : (CRITICAL == CRITICAL) = true := rfl
  have c2 : (CRITICAL == WARNING) = false := rfl
  have c3 : (CRITICAL == INFO) = false := rfl
  have c4 : (WARNING == CRITICAL) = false := rfl
  have c5 : (WARNING == WARNING) = true := rfl
  have c6 : (WARNING == INFO) = false := rfl
  have c7 : (INFO == CRITICAL) = false := rfl
  have c8 : (INFO == WARNING) = false := rfl
  have c9 : (INFO == INFO) = true := rfl
  induction l with
  | nil => rfl
  | cons x xs ih =>
    have hx := (h x (List.mem_cons_self x xs)).1
    have hxs := ih (fun f hf => h f (List.mem_cons_of_mem x hf))
    rcases hx with h1 | h1 | h1 <;>
      simp [List.filter_cons, h1, c1, c2, c3, c4, c5, c6, c7, c8, c9] <;>
      omega

/-- Inversion of a successful run of the entry point: the report's derived
fields are computed from its own `detailed_findings` exactly as in the
aggregation tail of the source, and every finding is well-formed. -/
theorem analyze_ok_elim {parse : String → PObj} {files : List (String × String)}
    {r : Report} (h : analyze_terraform_modules parse files = .ok r) :
    (∀ f ∈ r.detailed_findings, wfFinding f) ∧
    r.severity_summary.critical =
      (r.detailed_findings.filter (fun f => f.severity == CRITICAL)).length ∧
    r.severity_summary.warning =
      (r.detailed_findings.filter (fun f => f.severity == WARNING)).length ∧
    r.severity_summary.info =
      (r.detailed_findings.filter (fun f => f.severity == INFO)).length ∧
    r.maturity_level =
      (if (r.detailed_findings.filter (fun f => f.severity == CRITICAL)).length = 0 ∧
          (r.detailed_findings.filter (fun f => f.severity == WARNING)).length = 0 then
        "production-leaning"
       else if (r.detailed_findings.filter (fun f => f.severity == CRITICAL)).length = 0 ∧
          (r.detailed_findings.filter (fun f => f.severity == WARNING)).length ≤ 3 then
        "developing"
       else "basic") ∧
    r.recommended_improvements =
      dedupFirst (r.detailed_findings.map (fun f => f.recommendation)) := by
  simp only [analyze_terraform_modules] at h
  split at h
  · exact absurd h (by simp)
  · rename_i mf1 hms1
    split at h
    · exact absurd h (by simp)
    · rename_i mf2 hms2
      split at h
      · exact absurd h (by simp)
      · rename_i sf4 hsf4
        simp only [Except.ok.injEq] at h
        subst h
        refine ⟨?_, rfl, rfl, rfl, rfl, rfl⟩
        intro f hf
        simp only [buildReport] at hf
        rcases List.mem_append.1 hf with hf | hcost
        rcases List.mem_append.1 hf with hf | hsec
        rcases List.mem_append.1 hf with hpf | hmod
        · exact wf_parse_findings _ f hpf
        · rcases List.mem_append.1 hmod with hm | h4
          rcases List.mem_append.1 hm with hm | h3
          rcases List.mem_append.1 hm with h1 | h2
          · exact wf_check_module_sources hms1 f h1
          · exact wf_check_module_required_variables hms2 f h2
          · exact wf_check_variable_usage _ _ f h3
          · exact wf_check_output_references _ f h4
        · rcases List.mem_append.1 hsec with hs | h4
          rcases List.mem_append.1 hs with hs | h3
          rcases List.mem_append.1 hs with h1 | h2
          · exact wf_check_sensitive_variables _ f h1
          · exact wf_check_sensitive_outputs _ f h2
          · exact wf_check_tfvars_secrets _ f h3
          · exact wf_check_untrusted_module_sources hsf4 f h4
        · exact wf_cost_findings _ f hcost

/-! ## Claims C1, C2, C10 -/

/-- C1: for every input file map (and every behavior of the external
parser), whenever the analyzer returns a report, its `severity_summary`
counts are exactly the numbers of findings in `detailed_findings` with
severity `critical`, `warning` and `info`, and their sum equals the length
of `detailed_findings`. -/
theorem C1_severity_summary_partitions_detailed_findings
    (parse : String → PObj) (files : List (String × String)) (r : Report)
    (h : analyze_terraform_modules parse files = .ok r) :
    r.severity_summary.critical =
      r.detailed_findings.countP (fun f => f.severity == CRITICAL) ∧
    r.severity_summary.warning =
      r.detailed_findings.countP (fun f => f.severity == WARNING) ∧
    r.severity_summary.info =
      r.detailed_findings.countP (fun f => f.severity == INFO) ∧
    r.severity_summary.critical + r.severity_summary.warning +
      r.severity_summary.info = r.detailed_findings.length := by
  obtain ⟨hwf, hc, hw, hi, _, _⟩ := analyze_ok_elim h
  refine ⟨?_, ?_, ?_, ?_⟩
  · rw [hc, List.countP_eq_length_filter]
  · rw [hw, List.countP_eq_length_filter]
  · rw [hi, List.countP_eq_length_filter]
  · rw [hc, hw, hi]
    exact count_three _ hwf

/-- Witness for C1 at the concrete empty input. -/
def emptyReport : Report :=
  { analysis_type := "terraform-module-analysis"
    files_analyzed := []
    maturity_level := "production-leaning"
    module_findings := []
    security_findings := []
    cost_summary := ⟨[], ⟨0, 0, 0, 0⟩, "$0-$0"⟩
    findings := []
    risks := []
    recommended_improvements := []
    detailed_findings := []
    severity_summary := ⟨0, 0, 0⟩ }

/-- C1 witness: the theorem applied to the empty file map. -/
theorem C1_witness :
    emptyReport.severity_summary.critical =
      emptyReport.detailed_findings.countP (fun f => f.severity == CRITICAL) ∧
    emptyReport.severity_summary.warning =
      emptyReport.detailed_findings.countP (fun f => f.severity == WARNING) ∧
    emptyReport.severity_summary.info =
      emptyReport.detailed_findings.countP (fun f => f.severity == INFO) ∧
    emptyReport.severity_summary.critical + emptyReport.severity_summary.warning +
      emptyReport.severity_summary.info = emptyReport.detailed_findings.length :=
  C1_severity_summary_partitions_detailed_findings (fun _ => []) [] emptyReport rfl

/-- C2: `maturity_level` is `production-leaning` iff both the critical and
the warning counts are zero; `basic` exactly when there is a critical
finding or more than three warnings; `developing` otherwise (no critical,
one to three warnings). -/
theorem C2_maturity_level_thresholds
    (parse : String → PObj) (files : List (String × String)) (r : Report)
    (h : analyze_terraform_modules parse files = .ok r) :
    (r.maturity_level = "production-leaning" ↔
      r.detailed_findings.countP (fun f => f.severity == CRITICAL) = 0 ∧
      r.detailed_findings.countP (fun f => f.severity == WARNING) = 0) ∧
    ((0 < r.detailed_findings.countP (fun f => f.severity == CRITICAL) ∨
      3 < r.detailed_findings.countP (fun f => f.severity == WARNING)) →
      r.maturity_level = "basic") ∧
    ((r.detailed_findings.countP (fun f => f.severity == CRITICAL) = 0 ∧
      1 ≤ r.detailed_findings.countP (fun f => f.severity == WARNING) ∧
      r.detailed_findings.countP (fun f => f.severity == WARNING) ≤ 3) →
      r.maturity_level = "developing") := by
  obtain ⟨_, _, _, _, hm, _⟩ := analyze_ok_elim h
  rw [List.countP_eq_length_filter, List.countP_eq_length_filter]
  rw [hm]
  refine ⟨?_, ?_, ?_⟩
  · split
    · rename_i hcond
      simp only [true_iff]
      exact hcond
    · split
      · rename_i hcond1 hcond2
        constructor
        · intro he
          exact absurd he (by decide)
        · intro hc
          exact absurd hc hcond1
      · rename_i hcond1 hcond2
        constructor
        · intro he
          exact absurd he (by decide)
        · intro hc
          exact absurd hc hcond1
  · intro hgt
    split
    · rename_i hcond
      omega
    · split
      · rename_i hcond1 hcond2
        omega
      · rfl
  · intro hdev
    split
    · rename_i hcond
      omega
    · split
      · rfl
      · rename_i hcond1 hcond2
        omega

/-- C2 witness: the theorem applied to the empty file map, where the
maturity is `production-leaning` and both counts are zero. -/
theorem C2_witness :
    (emptyReport.maturity_level = "production-leaning" ↔
      emptyReport.detailed_findings.countP (fun f => f.severity == CRITICAL) = 0 ∧
      emptyReport.detailed_findings.countP (fun f => f.severity == WARNING) = 0) ∧
    ((0 < emptyReport.detailed_findings.countP (fun f => f.severity == CRITICAL) ∨
      3 < emptyReport.detailed_findings.countP (fun f => f.severity == WARNING)) →
      emptyReport.maturity_level = "basic") ∧
    ((emptyReport.detailed_findings.countP (fun f => f.severity == CRITICAL) = 0 ∧
      1 ≤ emptyReport.detailed_findings.countP (fun f => f.severity == WARNING) ∧
      emptyReport.detailed_findings.countP (fun f => f.severity == WARNING) ≤ 3) →
      emptyReport.maturity_level = "developing") :=
  C2_maturity_level_thresholds (fun _ => []) [] emptyReport rfl

/-- C10: every finding in `detailed_findings` carries a non-null
recommendation, `recommended_improvements` is the first-occurrence
deduplication of the findings' recommendations, and consequently contains
no null entry even though the aggregation applies no null filter. -/
theorem C10_recommendations_never_null
    (parse : String → PObj) (files : List (String × String)) (r : Report)
    (h : analyze_terraform_modules parse files = .ok r) :
    (∀ f ∈ r.detailed_findings, f.recommendation ≠ none) ∧
    r.recommended_improvements =
      dedupFirst (r.detailed_findings.map (fun f => f.recommendation)) ∧
    none ∉ r.recommended_improvements := by
  obtain ⟨hwf, _, _, _, _, himp⟩ := analyze_ok_elim h
  refine ⟨fun f hf => (hwf f hf).2, himp, ?_⟩
  intro hmem
  rw [himp] at hmem
  have h1 := mem_dedupFirst_iff_aux hmem
  rcases List.mem_map.1 h1 with ⟨f, hf, hr⟩
  exact (hwf f hf).2 hr

/-- C10 witness: the theorem applied to the empty file map. -/
theorem C10_witness :
    (∀ f ∈ emptyReport.detailed_findings, f.recommendation ≠ none) ∧
    emptyReport.recommended_improvements =
      dedupFirst (emptyReport.detailed_findings.map (fun f => f.recommendation)) ∧
    none ∉ emptyReport.recommended_improvements :=
  C10_recommendations_never_null (fun _ => []) [] emptyReport rfl

/-! ## Claim C8: required-variable scenario -/

/-- The parsed form of the C8 scenario: `main.tf` calls module `db` with
`source = "./modules/db"` passing only `engine`, and
`modules/db/variables.tf` declares `engine` and `instance_class`, both
without a default. -/
def parsedC8 : List (String × PObj) :=
  [("main.tf",
    [("module", .vlist [.vdict [("db", .vdict
      [("source", .vstr "./modules/db"), ("engine", .vstr "$\x7bvar.db_engine\x7d")])]])]),
   ("modules/db/variables.tf",
    [("variable", .vlist
      [.vdict [("engine", .vdict [("type", .vstr "$\x7bstring\x7d")])],
       .vdict [("instance_class", .vdict [("type", .vstr "$\x7bstring\x7d")])]])])]

/-- C8: on the scenario input, the required-variable check emits exactly
one finding; it is `critical` and names `instance_class`. -/
theorem C8_exactly_one_missing_required_variable :
    _check_module_required_variables parsedC8 =
      .ok [missingVarFinding "main.tf" "db" "instance_class"] ∧
    (missingVarFinding "main.tf" "db" "instance_class").severity = "critical" ∧
    pyIn "instance_class" (missingVarFinding "main.tf" "db" "instance_class").message
      = true := by
  refine ⟨?_, rfl, ?_⟩ <;> rfl

/-! ## Claim C3: module-directory resolution -/

/-- The parsed form of a root `main.tf` calling `source = "../modules/db"`
with no arguments, next to `modules/db/variables.tf` declaring the
no-default variable `engine`. -/
def parsedC3 : List (String × PObj) :=
  [("main.tf",
    [("module", .vlist [.vdict [("db", .vdict [("source", .vstr "../modules/db")])]])]),
   ("modules/db/variables.tf",
    [("variable", .vlist [.vdict [("engine", .vdict [])]])])]

/-- Same call, but the variables file placed under the directory
`.modules/db` that the code's resolution actually produces. -/
def parsedC3dot : List (String × PObj) :=
  [("main.tf",
    [("module", .vlist [.vdict [("db", .vdict [("source", .vstr "../modules/db")])]])]),
   (".modules/db/variables.tf",
    [("variable", .vlist [.vdict [("engine", .vdict [])]])])]

/-- C3 counterexample: the claim predicts the call with source
`../modules/db` in root `main.tf` is checked against the variables under
`modules/db`, which here would have to produce a missing-variable critical
for `engine`; the code resolves the directory to `.modules/db` instead
(Python `replace` deletes the inner `./` of `../`), finds no such
directory, and emits nothing. -/
theorem C3_counterexample :
    _check_module_required_variables parsedC3 = .ok [] ∧
    resolveModuleDir (dirOf "main.tf") "../modules/db" = ".modules/db" ∧
    assocGet (buildModuleVars parsedC3) "modules/db" = some [("engine", false)] := by
  refine ⟨rfl, rfl, rfl⟩

theorem removeAllFuel_of_not_contains {old : List Char} :
    ∀ (fuel : Nat) (l : List Char), containsList old l = false →
      removeAllFuel old fuel l = l := by
  intro fuel
  induction fuel with
  | zero => intro l _; rfl
  | succ n ih =>
    intro l h
    cases l with
    | nil => rfl
    | cons c rest =>
      rw [containsList, Bool.or_eq_false_iff] at h
      simp only [removeAllFuel, h.1, Bool.false_eq_true, if_false]
      rw [ih rest h.2]

/-- Python `s.replace(old, "") == s` when `old` does not occur in `s`. -/
theorem pyReplaceDel_of_not_contains (s old : String) (h : pyIn old s = false) :
    pyReplaceDel s old = s :=
  String.ext (removeAllFuel_of_not_contains _ _ h)

/-- Deleting `"./"` from `"./" ++ rest` strips exactly the prefix when no
further `"./"` occurs in `rest`. -/
theorem pyReplaceDel_strips_dotSlash (rest : String) (h : pyIn "./" rest = false) :
    pyReplaceDel ("./" ++ rest) "./" = rest := by
  apply String.ext
  show removeAllFuel "./".data ("./" ++ rest).data.length ("./" ++ rest).data = rest.data
  have hd : ("./" ++ rest).data = '.' :: '/' :: rest.data := by
    rw [String.data_append]; rfl
  rw [hd]
  simp only [List.length_cons]
  rw [removeAllFuel]
  have hp : "./".data.isPrefixOf ('.' :: '/' :: rest.data) = true := by
    simp [List.isPrefixOf]
  simp only [hp, if_true]
  exact removeAllFuel_of_not_contains _ _ h

/-- C3 (amended): the resolution deletes every occurrence of `./`, then
every occurrence of `../`, from the source (Python `str.replace`), strips
trailing slashes, and prefixes the caller directory joined with `/` when
non-empty.  For a `./`-prefixed source with no further `./` or `../`
occurrence this coincides with prefix-stripping; but a module call in root
`main.tf` with source `../modules/db` resolves to `.modules/db` (not
`modules/db`) and is therefore checked against the variables declared under
`.modules/db`. -/
theorem C3_resolution_amended :
    (∀ (rest callerDir : String), pyIn "./" rest = false → pyIn "../" rest = false →
      resolveModuleDir callerDir ("./" ++ rest) =
        (if callerDir != "" then callerDir ++ "/" ++ rstripSlash rest
         else rstripSlash rest)) ∧
    resolveModuleDir "" "../modules/db" = ".modules/db" ∧
    _check_module_required_variables parsedC3dot =
      .ok [missingVarFinding "main.tf" "db" "engine"] := by
  refine ⟨?_, rfl, rfl⟩
  intro rest callerDir h1 h2
  unfold resolveModuleDir
  rw [pyReplaceDel_strips_dotSlash rest h1, pyReplaceDel_of_not_contains rest "../" h2]

/-- C3 witness: the amended resolution rule applied to the concrete source
`./modules/db` called from the repository root. -/
theorem C3_witness :
    resolveModuleDir "" ("./" ++ "modules/db") =
      (if ("" : String) != "" then "" ++ "/" ++ rstripSlash "modules/db"
       else rstripSlash "modules/db") :=
  C3_resolution_amended.1 "modules/db" "" (by decide) (by decide)

/-! ## Claim C5: the two unpinned-source checks -/

theorem vcs_ne_noVersion (fn mn : String) :
    vcsPinFinding fn mn ≠ noVersionFinding fn mn := by
  intro h
  have hm : (vcsPinFinding fn mn).message = (noVersionFinding fn mn).message :=
    congrArg Finding.message h
  exact appendRightNe ((fn ++ ": module '") ++ mn) (by decide) hm

/-- Core of C5: no module configuration makes both untrusted-source
warnings fire, because their source-shape guards are complementary. -/
theorem untrusted_not_both (fn mn : String) (cfg : PObj) (l : List Finding)
    (hok : untrustedConfigFindings fn mn cfg = .ok l)
    (hv : vcsPinFinding fn mn ∈ l) (hr : noVersionFinding fn mn ∈ l) : False := by
  simp only [untrustedConfigFindings] at hok
  split at hok
  case h_2 => exact absurd hok (by simp)
  case h_1 s hs =>
    simp only [Except.ok.injEq] at hok
    subst hok
    have hne := vcs_ne_noVersion fn mn
    have hc1 : ((pyIn "git::" s || (pyIn "github.com" s && pyIn "git" s)) &&
        !pyIn "?ref=" s &&
        !truthy (unwrap1 (.vstr "") (getD cfg "version" (.vstr "")))) = true := by
      rcases List.mem_append.1 hv with h1 | h1 <;> split at h1 <;>
        first
          | assumption
          | exact absurd h1 (List.not_mem_nil _)
          | (simp only [List.mem_singleton] at h1; exact absurd h1 hne)
          | (simp only [List.mem_singleton] at h1; exact absurd h1.symm hne)
    have hc2 : (!pyStartsWith s "./" && !pyStartsWith s "../" &&
        !pyIn "git::" s && !pyIn "github.com" s && !s.isEmpty &&
        !truthy (unwrap1 (.vstr "") (getD cfg "version" (.vstr "")))) = true := by
      rcases List.mem_append.1 hr with h1 | h1 <;> split at h1 <;>
        first
          | assumption
          | exact absurd h1 (List.not_mem_nil _)
          | (simp only [List.mem_singleton] at h1; exact absurd h1 hne)
          | (simp only [List.mem_singleton] at h1; exact absurd h1.symm hne)
    simp only [Bool.and_eq_true, Bool.or_eq_true, Bool.not_eq_true'] at hc1 hc2
    rcases hc1.1.1 with hgit | hgh
    · rw [hc2.1.1.1.2] at hgit
      exact Bool.noConfusion hgit
    · rw [hc2.1.1.2] at hgh
      exact Bool.noConfusion hgh.1

/-- C5 counterexample: the claim asserts some module block makes both the
`no version pinning` and the `no version constraint` warnings fire; in
fact no configuration does, for any file name, module name or
configuration dict: the VCS condition requires `git::` or `github.com` in
the source and the registry condition requires their absence. -/
theorem C5_counterexample :
    ¬ ∃ (fn mn : String) (cfg : PObj) (l : List Finding),
        untrustedConfigFindings fn mn cfg = .ok l ∧
        vcsPinFinding fn mn ∈ l ∧ noVersionFinding fn mn ∈ l := by
  rintro ⟨fn, mn, cfg, l, hok, hv, hr⟩
  exact untrusted_not_both fn mn cfg l hok hv hr

/-- C5 (amended): the two checks are mutually exclusive for every module
block: the VCS `no version pinning` warning fires only when the source
contains `git::` or `github.com`, and the plain-registry `no version
constraint` warning only when it contains neither, so whenever the first
is emitted for a block the second is not. -/
theorem C5_checks_mutually_exclusive (fn mn : String) (cfg : PObj) (l : List Finding)
    (h : untrustedConfigFindings fn mn cfg = .ok l)
    (hv : vcsPinFinding fn mn ∈ l) : noVersionFinding fn mn ∉ l := by
  intro hr
  exact untrusted_not_both fn mn cfg l h hv hr

/-- C5 witness: the theorem applied to a concrete unpinned git-source
configuration, for which the VCS warning does fire. -/
theorem C5_witness :
    noVersionFinding "main.tf" "vpc" ∉ [vcsPinFinding "main.tf" "vpc"] :=
  C5_checks_mutually_exclusive "main.tf" "vpc"
    [("source", .vstr "git::https://github.com/org/terraform-vpc.git")]
    [vcsPinFinding "main.tf" "vpc"] rfl (List.mem_cons_self _ _)

/-! ## Claim C6: the variable-usage reference scan -/

theorem mem_of_assocGet {β : Type} :
    ∀ {l : List (String × β)} {k : String} {v : β},
      assocGet l k = some v → (k, v) ∈ l := by
  intro l
  induction l with
  | nil => intro k v h; exact absurd h (by simp [assocGet])
  | cons e rest ih =>
    intro k v h
    obtain ⟨k2, v2⟩ := e
    rw [assocGet] at h
    split at h
    · rename_i heq
      simp only [Option.some.injEq] at h
      subst h
      subst heq
      exact List.mem_cons_self _ _
    · exact List.mem_cons_of_mem _ (ih h)

/-- The declared-but-never-referenced finding determines its variable name
and declaring file: its recommendation pins the name and its message then
pins the file. -/
theorem unusedVarFinding_inj {a b c d : String}
    (h : unusedVarFinding a b = unusedVarFinding c d) : a = c ∧ b = d := by
  have hr : (unusedVarFinding a b).recommendation =
      (unusedVarFinding c d).recommendation := congrArg Finding.recommendation h
  have hm : (unusedVarFinding a b).message = (unusedVarFinding c d).message :=
    congrArg Finding.message h
  simp only [unusedVarFinding, Option.some.injEq] at hr hm
  have hb : b = d := by
    have h1 := congrArg String.data hr
    simp only [String.data_append] at h1
    exact String.ext (List.append_cancel_left (List.append_cancel_right h1))
  subst hb
  have ha : a = c := by
    have h1 := congrArg String.data hm
    simp only [String.data_append] at h1
    exact String.ext
      (List.append_cancel_right (List.append_cancel_right (List.append_cancel_right h1)))
  exact ⟨ha, rfl⟩

theorem undeclared_ne_unused (m fn n : String) :
    undeclaredVarFinding m ≠ unusedVarFinding fn n := by
  intro h
  have hs : WARNING = INFO := congrArg Finding.severity h
  exact absurd hs (by decide)

/-- The parsed form of a lone `variables.tf` declaring variable `foo`. -/
def parsedC6 : List (String × PObj) :=
  [("variables.tf", [("variable", .vlist [.vdict [("foo", .vdict [])]])])]

/-- The raw C6 file map: the configuration file declaring `foo` (whose text
contains no `var.foo`), and a values file whose text contains `var.foo`. -/
def filesC6 : List (String × String) :=
  [("variables.tf", "variable \"foo\" \x7b\n\x7d\n"), ("a.tfvars", "x = var.foo")]

/-- C6 counterexample: `foo` is declared in a configuration file and
`var.foo` appears in no configuration file (second conjunct), yet the
check emits no finding at all, because the scan also reads the values
file `a.tfvars`; the claim predicts an `info` declared-but-never-referenced
finding regardless of `.tfvars` contents. -/
theorem C6_counterexample :
    _check_variable_usage parsedC6 filesC6 = [] ∧
    findVarRefs "variable \"foo\" \x7b\n\x7d\n" = [] := by
  exact ⟨rfl, rfl⟩

/-- C6 (amended): `referenced` is decided by scanning the concatenated raw
text of ALL input files (the entry point passes the whole file map to the
check, values files included): a declared variable with no `var.<name>`
occurrence in any input file yields the `info` finding, and an occurrence
in any input file — also a `.tfvars` one — suppresses it. -/
theorem C6_variable_usage_scans_all_files
    (pf : List (String × PObj)) (raw : List (String × String)) (n fn : String)
    (hdecl : assocGet (buildDeclaredVars pf) n = some fn) :
    (n ∉ dedupStr (findVarRefs (String.intercalate " " (raw.map (fun fc => fc.2)))) →
      unusedVarFinding fn n ∈ _check_variable_usage pf raw) ∧
    (n ∈ dedupStr (findVarRefs (String.intercalate " " (raw.map (fun fc => fc.2)))) →
      unusedVarFinding fn n ∉ _check_variable_usage pf raw) := by
  constructor
  · intro hnot
    simp only [_check_variable_usage]
    apply List.mem_append.2
    left
    apply List.mem_filterMap.2
    refine ⟨(n, fn), mem_of_assocGet hdecl, ?_⟩
    have hc : (dedupStr (findVarRefs
        (String.intercalate " " (raw.map (fun fc => fc.2))))).contains n = false := by
      cases hcc : (dedupStr (findVarRefs
          (String.intercalate " " (raw.map (fun fc => fc.2))))).contains n
      · rfl
      · exact absurd (List.elem_iff.1 hcc) hnot
    simp only [hc, Bool.false_eq_true, if_false]
  · intro hmem hin
    simp only [_check_variable_usage] at hin
    rcases List.mem_append.1 hin with h1 | h1
    · rcases List.mem_filterMap.1 h1 with ⟨d, _, hfd⟩
      split at hfd
      · exact absurd hfd (by simp)
      · rename_i hguard
        simp only [Option.some.injEq] at hfd
        obtain ⟨_, hn⟩ := unusedVarFinding_inj hfd
        rw [hn] at hguard
        exact hguard (List.elem_iff.2 hmem)
    · rcases List.mem_filterMap.1 h1 with ⟨m, _, hfm⟩
      split at hfm
      · exact absurd hfm (by simp)
      · simp only [Option.some.injEq] at hfm
        exact undeclared_ne_unused m fn n hfm

/-- C6 witness: applied to the concrete C6 inputs — with only the
configuration file present the finding is emitted; with the values file
added it is suppressed. -/
theorem C6_witness :
    unusedVarFinding "variables.tf" "foo" ∈
      _check_variable_usage parsedC6 [("variables.tf", "variable \"foo\" \x7b\n\x7d\n")] ∧
    unusedVarFinding "variables.tf" "foo" ∉ _check_variable_usage parsedC6 filesC6 :=
  ⟨(C6_variable_usage_scans_all_files parsedC6
      [("variables.tf", "variable \"foo\" \x7b\n\x7d\n")] "foo" "variables.tf" rfl).1
      (by decide),
   (C6_variable_usage_scans_all_files parsedC6 filesC6 "foo" "variables.tf" rfl).2
      (by decide)⟩

/-! ## Claim C7: sensitive variables -/

theorem assocGet_assocSet_self {β : Type} :
    ∀ (l : List (String × β)) (k : String) (v : β),
      assocGet (assocSet l k v) k = some v := by
  intro l k v
  induction l with
  | nil => simp [assocSet, assocGet]
  | cons e rest ih =>
    obtain ⟨k2, v2⟩ := e
    rw [assocSet]
    split
    · rename_i heq
      rw [assocGet]
      simp [heq]
    · rename_i hne
      rw [assocGet]
      simp only [hne, if_false]
      exact ih

theorem lacks_ne_hardcoded (fn n : String) :
    lacksSensitiveFinding fn n ≠ hardcodedDefaultFinding fn n := by
  intro h
  have hm : (lacksSensitiveFinding fn n).message =
      (hardcodedDefaultFinding fn n).message := congrArg Finding.message h
  exact appendRightNe ((fn ++ ": variable '") ++ n) (by decide) hm

/-- C7: for a variable whose name matches a sensitive pattern, a falsy
`sensitive` flag yields the `lacks sensitive = true` critical finding;
independently, a non-empty default yields the hardcoded-default critical
finding; both co-occur on a concrete input; setting `sensitive = true`
removes the first finding; and the check processes each variable entry
locally, so changing one entry cannot affect the findings of the others. -/
theorem C7_sensitive_variable_findings :
    (∀ (fn n : String) (cfg : PObj), isSensitiveName (pyLower n) = true →
      truthy (sensitiveFlagOf cfg) = false →
      lacksSensitiveFinding fn n ∈ sensVarEntryFindings fn (n, .vdict cfg)) ∧
    (∀ (fn n : String) (cfg : PObj), isSensitiveName (pyLower n) = true →
      nonEmptyDefault cfg = true →
      hardcodedDefaultFinding fn n ∈ sensVarEntryFindings fn (n, .vdict cfg)) ∧
    (lacksSensitiveFinding "variables.tf" "db_password" ∈
        sensVarEntryFindings "variables.tf"
          ("db_password", .vdict [("default", .vstr "hunter2")]) ∧
      hardcodedDefaultFinding "variables.tf" "db_password" ∈
        sensVarEntryFindings "variables.tf"
          ("db_password", .vdict [("default", .vstr "hunter2")])) ∧
    (∀ (fn n : String) (cfg : PObj),
      lacksSensitiveFinding fn n ∉
        sensVarEntryFindings fn (n, .vdict (assocSet cfg "sensitive" (.vbool true)))) ∧
    (∀ (fn : String) (es1 es2 : List (String × HVal)) (e : String × HVal),
      (es1 ++ e :: es2).flatMap (sensVarEntryFindings fn) =
        es1.flatMap (sensVarEntryFindings fn) ++
          (sensVarEntryFindings fn e ++ es2.flatMap (sensVarEntryFindings fn))) := by
  refine ⟨?_, ?_, ⟨by decide, by decide⟩, ?_, ?_⟩
  · intro fn n cfg hsens hflag
    simp [sensVarEntryFindings, hsens, asList, sensVarConfigFindings, hflag]
  · intro fn n cfg hsens hdef
    simp [sensVarEntryFindings, hsens, asList, sensVarConfigFindings, hdef]
  · intro fn n cfg
    have hflag : truthy (sensitiveFlagOf (assocSet cfg "sensitive" (.vbool true))) =
        true := by
      simp only [sensitiveFlagOf, getD, assocGet_assocSet_self]
      rfl
    have hne := lacks_ne_hardcoded fn n
    simp only [sensVarEntryFindings]
    split
    · intro hmem
      simp only [asList, List.flatMap_cons, List.flatMap_nil, List.append_nil,
        sensVarConfigFindings, hflag] at hmem
      rcases List.mem_append.1 hmem with h | h
      · simp at h
      · split at h
        · simp only [List.mem_singleton] at h
          exact hne h
        · simp at h
    · exact List.not_mem_nil _
  · intro fn es1 es2 e
    simp [List.flatMap_append, List.flatMap_cons]

/-- C7 witness: the theorem's universally quantified parts applied to
concrete variables. -/
theorem C7_witness :
    lacksSensitiveFinding "variables.tf" "db_password" ∈
      sensVarEntryFindings "variables.tf" ("db_password", .vdict []) ∧
    hardcodedDefaultFinding "variables.tf" "api_key" ∈
      sensVarEntryFindings "variables.tf"
        ("api_key", .vdict [("default", .vstr "sk-12345abc")]) ∧
    lacksSensitiveFinding "variables.tf" "db_password" ∉
      sensVarEntryFindings "variables.tf"
        ("db_password", .vdict (assocSet [] "sensitive" (.vbool true))) :=
  ⟨C7_sensitive_variable_findings.1 "variables.tf" "db_password" [] (by decide)
      (by decide),
   C7_sensitive_variable_findings.2.1 "variables.tf" "api_key"
      [("default", .vstr "sk-12345abc")] (by decide) (by decide),
   C7_sensitive_variable_findings.2.2.2.1 "variables.tf" "db_password" []⟩

/-! ## Claim C9: the tfvars secret scanner is extension-scoped -/

def secretLine : String := "db_password = \"real-secret-password\""

/-- A name ending in `.tf` cannot also end in `.tfvars` (`f` vs `s`). -/
theorem endsWith_tf_not_tfvars {name : String} (h : pyEndsWith name ".tf" = true) :
    pyEndsWith name ".tfvars" = false := by
  have h2 : List.isPrefixOf ".tf".data.reverse name.data.reverse = true := h
  show List.isPrefixOf ".tfvars".data.reverse name.data.reverse = false
  cases hr : name.data.reverse with
  | nil =>
    rw [hr] at h2
    exact absurd h2 (by decide)
  | cons c r =>
    rw [hr] at h2
    have hc : c = 'f' := by
      have h3 : (('f' == c) && List.isPrefixOf ['t', '.'] r) = true := h2
      rw [Bool.and_eq_true] at h3
      exact (beq_iff_eq.1 h3.1).symm
    subst hc
    show (('s' == 'f') && List.isPrefixOf ['r', 'a', 'v', 'f', 't', '.'] r) = false
    rfl

/-- C9: the tfvars secret scanner is extension-scoped: for any input file
map containing the line `db_password = "real-secret-password"` under a
name ending in `.tfvars`, the scanner emits a critical hardcoded-secret
finding for that file; the identical text under a name ending in `.tf`
produces no finding from this scanner. -/
theorem C9_tfvars_scanner_extension_scoped :
    (∀ (files : List (String × String)) (name : String),
      (name, secretLine) ∈ files → pyEndsWith name ".tfvars" = true →
      tfvarsSecretFinding name ∈ _check_tfvars_secrets files ∧
      (tfvarsSecretFinding name).severity = CRITICAL) ∧
    (∀ name : String, pyEndsWith name ".tf" = true →
      _check_tfvars_secrets [(name, secretLine)] = []) := by
  have hsecret : hasSecretAssignment secretLine = true := by decide
  have hakia : hasAwsAccessKeyId secretLine = false := by decide
  constructor
  · intro files name hmem hext
    refine ⟨?_, rfl⟩
    simp only [_check_tfvars_secrets]
    apply List.mem_flatMap.2
    refine ⟨(name, secretLine), hmem, ?_⟩
    simp only [hext, hsecret, hakia, Bool.not_true, Bool.false_eq_true, if_false,
      if_true, List.append_nil]
    exact List.mem_cons_self _ _
  · intro name hext
    have hnv : pyEndsWith name ".tfvars" = false := endsWith_tf_not_tfvars hext
    simp only [_check_tfvars_secrets, List.flatMap_cons, List.flatMap_nil,
      List.append_nil, hnv, Bool.not_false, if_true]

/-- C9 witness: the theorem applied to the concrete names `prod.tfvars`
and `main.tf`. -/
theorem C9_witness :
    (tfvarsSecretFinding "prod.tfvars" ∈
        _check_tfvars_secrets [("prod.tfvars", secretLine)] ∧
      (tfvarsSecretFinding "prod.tfvars").severity = CRITICAL) ∧
    _check_tfvars_secrets [("main.tf", secretLine)] = [] :=
  ⟨C9_tfvars_scanner_extension_scoped.1 [("prod.tfvars", secretLine)] "prod.tfvars"
      (List.mem_cons_self _ _) (by decide),
   C9_tfvars_scanner_extension_scoped.2 "main.tf" (by decide)⟩

/-! ## Claim C4: the analyzer can raise -/

/-- The raw text of a module block whose `source` attribute is the numeric
literal `5` — valid HCL2 syntax, parsed by `python-hcl2` to a Python int. -/
def c4Content : String := "module \"m\" \x7b\n  source = 5\n\x7d\n"

/-- Modelled from the spec: the external `hcl2.load` parser (absent from
the repository) on the C4 input.  Per the spec's data model a block
attribute value "may itself be a nested mapping, a list, a scalar, or a
one-element list wrapping a scalar"; the HCL integer literal `5` parses to
the integer scalar 5. -/
def parseC4 : String → PObj := fun c =>
  if c = c4Content then
    [("module", .vlist [.vdict [("m", .vdict [("source", .vint 5)])]])]
  else []

/-- C4 (code bug): on a file map whose only file is a module block with
`source = 5`, the analyzer raises `AttributeError` to its caller (Python:
`int` has no `startswith`, line 89 of the module analyzer) instead of
returning a report, contradicting the never-raises claim. -/
theorem C4_analyzer_raises_on_numeric_source :
    analyze_terraform_modules parseC4 [("main.tf", c4Content)] =
      .error .attributeError := rfl

end TfAnalyzer
